import Mathlib

/-!
Verification development for the Cordatus Flash Utility backend
(`src/src-tauri/src/main.rs`).

The Rust backend is shallowly embedded:

* the three progress regexes `Downloading.*?(\d+)%`, `Flashing.*?(\d+)%`,
  `Verifying.*?(\d+)%` are modelled over `List Char` with leftmost-first
  semantics (lazy gap that may not cross a newline, greedy digit capture,
  digits modelled as ASCII digits, on which the subsequent `parse::<f32>`
  always succeeds);
* `f32` progress arithmetic is modelled with exact rationals (the fixed
  factors 0.3, 0.6, 0.1 are decimal literals, exact in `ℚ`);
* the `u64` cast of the advisory time estimate truncates toward zero and
  clamps negative values to zero, modelled by `Rat.floor` + `Int.toNat`;
* the two shared `HashMap`s of `AppState` (progress map and process-handle
  map) are modelled as association lists with whole-key removal;
* a process handle carries the eventual exit code of the child
  (`none` = no code available, as after a signal).
-/

/-- `pfx pat l` : `pat` is a leading sequence of `l` (character match). -/
def pfx : List Char → List Char → Bool
  | [], _ => true
  | _ :: _, [] => false
  | a :: as, b :: bs => a == b && pfx as bs

/-- Numeric value of a sequence of ASCII digits, as the Rust `parse` reads it. -/
def digitsToNat (ds : List Char) : Nat :=
  ds.foldl (fun n c => 10 * n + (c.toNat - 48)) 0

/-- Search for the lazy tail `.*?(\d+)%` of one progress regex: scan left to
right (never across a newline, which `.` does not match); at the first
position where a maximal ASCII digit run is immediately followed by `'%'`,
capture that run. -/
def findCapture : List Char → Option Nat
  | [] => none
  | c :: rest =>
    if c = '\n' then none
    else if c.isDigit then
      match (c :: rest).dropWhile Char.isDigit with
      | '%' :: _ => some (digitsToNat ((c :: rest).takeWhile Char.isDigit))
      | _ => findCapture rest
    else findCapture rest

/-- Leftmost-first match of `pat.*?(\d+)%` against a line: at each occurrence
of the literal `pat`, look for the lazy digit capture after it; the first
occurrence that completes a match wins. -/
def captureNumPercent (pat : List Char) : List Char → Option Nat
  | [] => none
  | c :: rest =>
    if pfx pat (c :: rest) then
      match findCapture ((c :: rest).drop pat.length) with
      | some n => some n
      | none => captureNumPercent pat rest
    else captureNumPercent pat rest

def download_pat : List Char := "Downloading".toList
def flash_pat : List Char := "Flashing".toList
def verify_pat : List Char := "Verifying".toList

/-- `FlashProgress` record of `main.rs` (timestamps abstracted to `Nat`,
`f32` fields to `ℚ`). -/
structure FlashProgress where
  stage : String
  progress : ℚ
  message : String
  details : Option String
  start_time : Option Nat
  estimated_time_remaining : Option Nat
deriving DecidableEq

/-- The `as u64` cast of an `f32`: truncate toward zero, negative values
clamp to zero (the values cast in `main.rs` never exceed `u64::MAX`). -/
def u64cast (q : ℚ) : Nat := q.floor.toNat

/-- `parse_flash_output` of `main.rs`: the three regexes tried in order
download, flashing, verifying; the local percent is mapped to the global
scale by the fixed weights 0.3 / 0.6 / 0.1. -/
def parse_flash_output (line : String) : Option FlashProgress :=
  match captureNumPercent download_pat line.toList with
  | some p =>
      some { stage := "downloading", progress := (p : ℚ) * 0.3,
             message := line, details := none, start_time := none,
             estimated_time_remaining := some (u64cast ((100 - (p : ℚ)) * 2.0)) }
  | none =>
  match captureNumPercent flash_pat line.toList with
  | some p =>
      some { stage := "flashing", progress := 30 + (p : ℚ) * 0.6,
             message := line, details := none, start_time := none,
             estimated_time_remaining := some (u64cast ((100 - (p : ℚ)) * 1.5)) }
  | none =>
  match captureNumPercent verify_pat line.toList with
  | some p =>
      some { stage := "verifying", progress := 90 + (p : ℚ) * 0.1,
             message := line, details := none, start_time := none,
             estimated_time_remaining := some (u64cast ((100 - (p : ℚ)) * 0.5)) }
  | none => none

example : captureNumPercent download_pat ("Downloading package (42%)".toList) = some 42 := by decide
example : parse_flash_output "hello world" = none := by decide

/-- `FlashCommand` record of `main.rs`. -/
structure FlashCommand where
  product : String
  device_module : String
  jetpack_version : String
  storage_device : String
  keep_files : Bool
  user_name : String
deriving DecidableEq

/-- A stored `tokio::process::Child`, abstracted to the exit information its
`wait()` will eventually deliver (`none` = no exit code available, as after
termination by a signal); `success()` is `exit_code == some 0`. -/
structure ProcHandle where
  exit_code : Option Int
deriving DecidableEq

/-- The two shared maps of `AppState` in `main.rs` that the flash-job claims
concern, as association lists keyed by flash id. -/
structure AppState where
  flash_progress : List (String × FlashProgress)
  active_flashes : List (String × ProcHandle)
deriving DecidableEq

def emptyState : AppState := ⟨[], []⟩

/-- `HashMap::get` on the model: value at the first matching key. -/
def mget {α : Type} : List (String × α) → String → Option α
  | [], _ => none
  | (k, v) :: rest, key => if k = key then some v else mget rest key

/-- `HashMap::remove` on the model: drop every pair at the key. -/
def mdel {α : Type} : List (String × α) → String → List (String × α)
  | [], _ => []
  | (k, v) :: rest, key => if k = key then mdel rest key else (k, v) :: mdel rest key

/-- `HashMap::insert` on the model: the new pair replaces any pair at the key. -/
def mput {α : Type} (m : List (String × α)) (key : String) (v : α) : List (String × α) :=
  (key, v) :: mdel m key

theorem mget_mput_self {α : Type} (m : List (String × α)) (k : String) (v : α) :
    mget (mput m k v) k = some v := by
  simp [mput, mget]

theorem mget_mdel {α : Type} (m : List (String × α)) (k key : String) :
    mget (mdel m k) key = if key = k then none else mget m key := by
  induction m with
  | nil => simp [mdel, mget]
  | cons hd tl ih =>
    obtain ⟨k', v'⟩ := hd
    by_cases h2 : key = k
    · subst h2
      by_cases h1 : k' = key <;> simp [mdel, mget, h1, ih]
    · by_cases h1 : k' = k
      · subst h1
        simp [mdel, mget, ih, h2, Ne.symm h2]
      · simp [mdel, mget, h1, ih, h2]

theorem mget_mput {α : Type} (m : List (String × α)) (k key : String) (v : α) :
    mget (mput m k v) key = if key = k then some v else mget m key := by
  by_cases h : key = k
  · subst h; simp [mget_mput_self]
  · simp [mput, mget, Ne.symm h, mget_mdel, h]

theorem mdel_mdel {α : Type} (m : List (String × α)) (k : String) :
    mdel (mdel m k) k = mdel m k := by
  induction m with
  | nil => simp [mdel]
  | cons hd tl ih =>
    obtain ⟨k', v'⟩ := hd
    by_cases h : k' = k <;> simp [mdel, h, ih]

/-- Initial snapshot inserted by `start_flash_process` (`now` abstracts
`Utc::now()`). -/
def initial_progress (now : Nat) : FlashProgress :=
  { stage := "preparing", progress := 0.0,
    message := "Preparing flash process...",
    details := none, start_time := some now,
    estimated_time_remaining := none }

/-- The fixed placeholder snapshot published by `execute_flash_process`
before any output is read. -/
def downloading_placeholder (command : FlashCommand) : FlashProgress :=
  { stage := "downloading", progress := 10.0,
    message := "Downloading JetPack files...",
    details := some ("Downloading " ++ command.jetpack_version ++ " for " ++ command.device_module),
    start_time := none, estimated_time_remaining := some 300 }

/-- Terminal snapshot written on process exit code 0. -/
def complete_snapshot : FlashProgress :=
  { stage := "complete", progress := 100.0,
    message := "Flash process completed successfully!",
    details := some "Device is ready to use",
    start_time := none, estimated_time_remaining := none }

/-- Snapshot the `tokio::spawn` wrapper in `start_flash_process` inserts when
`execute_flash_process` returns an error `e`. -/
def error_snapshot (e : String) : FlashProgress :=
  { stage := "error", progress := 0.0,
    message := "Flash process failed",
    details := some e,
    start_time := none, estimated_time_remaining := none }

/-- `update_flash_progress` of `main.rs`, restricted to its registry effect
(the event emission is fire-and-forget and modelled as always succeeding). -/
def update_flash_progress (st : AppState) (flash_id : String) (progress : FlashProgress) : AppState :=
  { st with flash_progress := mput st.flash_progress flash_id progress }

/-- `start_flash_process`, up to returning the fresh id: inserts the initial
`preparing` snapshot for the generated flash id. -/
def start_flash_process (flash_id : String) (now : Nat) (st : AppState) : AppState :=
  { st with flash_progress := mput st.flash_progress flash_id (initial_progress now) }

/-- Registration of the spawned child in `execute_flash_process`
(`active_flashes.insert(flash_id.clone(), child)`). -/
def register_child (flash_id : String) (child : ProcHandle) (st : AppState) : AppState :=
  { st with active_flashes := mput st.active_flashes flash_id child }

/-- One iteration of the stdout streaming loop of `execute_flash_process`:
a parsed line replaces the snapshot, a non-matching line changes nothing. -/
def stream_line (flash_id : String) (line : String) (st : AppState) : AppState :=
  match parse_flash_output line with
  | some progress_info => update_flash_progress st flash_id progress_info
  | none => st

/-- The `tokio::spawn` wrapper path of `start_flash_process`: whenever
`execute_flash_process` returns an error `e` (spawn failure, missing handle,
non-zero exit, ...), an `error` snapshot is inserted. -/
def task_error (flash_id : String) (e : String) (st : AppState) : AppState :=
  { st with flash_progress := mput st.flash_progress flash_id (error_snapshot e) }

/-- End-of-stream handling of `execute_flash_process` (retrieve-and-remove
the handle, wait, interpret the exit code, clean up) combined with the
`tokio::spawn` wrapper of `start_flash_process` that turns any returned
error into an `error` snapshot. -/
def finish_flash (flash_id : String) (st : AppState) : AppState :=
  match mget st.active_flashes flash_id with
  | none =>
      -- `remove` found nothing: `.context("Flash process not found")?` errors out
      let st1 : AppState := { st with active_flashes := mdel st.active_flashes flash_id }
      task_error flash_id "Flash process not found" st1
  | some child =>
      let st1 : AppState := { st with active_flashes := mdel st.active_flashes flash_id }
      if child.exit_code = some 0 then
        -- `output.success()`: publish `complete`, then the no-op final cleanup
        let st2 := update_flash_progress st1 flash_id complete_snapshot
        { st2 with active_flashes := mdel st2.active_flashes flash_id }
      else
        let msg := "Flash process exited with error code: " ++ toString (child.exit_code.getD (-1))
        task_error flash_id msg st1

/-- `cancel_flash_process` of `main.rs`: remove the handle, best-effort kill
(`kill_ok` records whether the kill request succeeded; a failure is only
logged), remove the snapshot, return `Ok(())`. -/
def cancel_flash_process (flash_id : String) (kill_ok : Bool) (st : AppState) :
    AppState × Except String Unit :=
  let _child := mget st.active_flashes flash_id
  let _kill_attempt_ok := kill_ok
  let st1 : AppState := { st with active_flashes := mdel st.active_flashes flash_id }
  let st2 : AppState := { st1 with flash_progress := mdel st1.flash_progress flash_id }
  (st2, Except.ok ())

/-- `get_flash_progress` of `main.rs` (always `Ok`; the payload). -/
def get_flash_progress (flash_id : String) (st : AppState) : Option FlashProgress :=
  mget st.flash_progress flash_id

/-- The registry-mutating events a flash job's lifecycle can produce,
naming the code paths of `main.rs` they are translated from. -/
inductive FlashOp where
  | submit (flash_id : String) (now : Nat)
  | taskError (flash_id : String) (e : String)
  | placeholder (flash_id : String) (command : FlashCommand)
  | spawnChild (flash_id : String) (child : ProcHandle)
  | streamLine (flash_id : String) (line : String)
  | finish (flash_id : String)
  | cancel (flash_id : String) (kill_ok : Bool)

def applyOp (op : FlashOp) (st : AppState) : AppState :=
  match op with
  | .submit flash_id now => start_flash_process flash_id now st
  | .taskError flash_id e => task_error flash_id e st
  | .placeholder flash_id command => update_flash_progress st flash_id (downloading_placeholder command)
  | .spawnChild flash_id child => register_child flash_id child st
  | .streamLine flash_id line => stream_line flash_id line st
  | .finish flash_id => finish_flash flash_id st
  | .cancel flash_id kill_ok => (cancel_flash_process flash_id kill_ok st).1

def runOps (ops : List FlashOp) (st : AppState) : AppState :=
  ops.foldl (fun s op => applyOp op s) st

/-- `get_board_id_from_module` of `main.rs` (the Rust `match` on the module
string, tested clause by clause). -/
def get_board_id_from_module (module : String) : String :=
  if module = "AGX Orin" then "3701-0000"
  else if module = "Orin NX" then "3767-0000"
  else if module = "Orin Nano" then "3767-0003"
  else if module = "AGX Xavier" then "2888-0001"
  else if module = "Xavier NX" then "3668-0000"
  else if module = "Nano - 4GB" then "3448-0002"
  else "0000-0000"

/-- `get_supported_l4t_versions` of `main.rs`. -/
def get_supported_l4t_versions (module : String) : List String :=
  if module = "AGX Orin" ∨ module = "Orin NX" ∨ module = "Orin Nano" then
    ["36.4.4", "36.4.3", "36.4.0", "36.3.0", "36.2.0", "35.5.0", "35.4.1", "35.3.1", "35.2.1"]
  else if module = "AGX Xavier" ∨ module = "Xavier NX" then
    ["35.5.0", "35.4.1", "35.3.1", "35.2.1", "32.7.5", "32.7.4", "32.7.3", "32.7.2", "32.7.1"]
  else if module = "Nano - 4GB" then
    ["32.7.5", "32.7.4", "32.7.3", "32.7.2", "32.7.1"]
  else []

/-- `get_storage_options` of `main.rs`. -/
def get_storage_options (module : String) : List String :=
  if module = "AGX Orin" ∨ module = "Orin NX" ∨ module = "AGX Xavier" ∨ module = "Xavier NX" then
    ["nvme", "sd", "emmc"]
  else if module = "Orin Nano" then
    ["nvme", "sd"]
  else if module = "Nano - 4GB" then
    ["sd"]
  else ["sd"]

/-- The module names the catalog matches explicitly. -/
def knownModules : List String :=
  ["AGX Orin", "Orin NX", "Orin Nano", "AGX Xavier", "Xavier NX", "Nano - 4GB"]

/-- Split a character list at every `'.'`. -/
def splitOnDot : List Char → List (List Char)
  | [] => [[]]
  | c :: rest =>
    if c = '.' then [] :: splitOnDot rest
    else
      match splitOnDot rest with
      | [] => [[c]]
      | seg :: segs => (c :: seg) :: segs

/-- Numeric key of an `a.b.c` L4T version string. -/
def verKey (s : String) : List Nat :=
  (splitOnDot s.toList).map digitsToNat

/-- Strict lexicographic order on numeric version keys. -/
def natListLt : List Nat → List Nat → Bool
  | [], [] => false
  | [], _ :: _ => true
  | _ :: _, [] => false
  | a :: as, b :: bs => if a < b then true else if b < a then false else natListLt as bs

/-- Each adjacent pair of version strings is strictly decreasing under the
numeric version order (newest first). -/
def sortedNewestFirst : List String → Bool
  | [] => true
  | [_] => true
  | a :: b :: rest => natListLt (verKey b) (verKey a) && sortedNewestFirst (b :: rest)

example : sortedNewestFirst ["36.4.4", "36.4.3", "35.5.0"] = true := by decide
example : sortedNewestFirst ["35.5.0", "36.4.3"] = false := by decide

/-- One alternate-setting descriptor of a USB interface
(`rusb::InterfaceDescriptor`): the codes `check_recovery_mode` reads. -/
structure InterfaceDescriptor where
  class_code : Nat
  sub_class_code : Nat
deriving DecidableEq

/-- One interface of an active configuration (`rusb::Interface`), its
descriptors in alternate-setting order. -/
structure UsbInterface where
  descriptors : List InterfaceDescriptor
deriving DecidableEq

/-- An active configuration descriptor (`rusb::ConfigDescriptor`);
`num_interfaces` is the length of the parsed interface list. -/
structure ConfigDescriptor where
  interfaces : List UsbInterface
deriving DecidableEq

def ConfigDescriptor.num_interfaces (c : ConfigDescriptor) : Nat := c.interfaces.length

/-- A device as `check_recovery_mode` observes it:
`active_config = none` models `active_config_descriptor()` failing. -/
structure RusbDevice where
  active_config : Option ConfigDescriptor
deriving DecidableEq

/-- `check_recovery_mode` of `main.rs`: every path returns `Ok`. -/
def check_recovery_mode (device : RusbDevice) : Except String Bool :=
  match device.active_config with
  | some config_desc =>
    if config_desc.num_interfaces = 1 then
      match config_desc.interfaces.head? with
      | some interface =>
        match interface.descriptors.head? with
        | some interface_desc =>
            Except.ok (interface_desc.class_code == 0xFF && interface_desc.sub_class_code == 0x00)
        | none => Except.ok false
      | none => Except.ok false
    else Except.ok false
  | none => Except.ok false

/-- The `is_recovery_mode` flag as `detect_usb_devices` derives it
(`check_recovery_mode(&device).unwrap_or(false)`). -/
def derive_recovery_flag (device : RusbDevice) : Bool :=
  match check_recovery_mode device with
  | Except.ok b => b
  | Except.error _ => false

/-- The positional argument list handed to `bash` in
`execute_flash_process` (`cmd.arg(..)` chain). -/
def flash_args (script_path : String) (command : FlashCommand) : List String :=
  [script_path,
   command.product,
   command.device_module,
   command.jetpack_version,
   command.storage_device,
   if command.keep_files then "true" else "false",
   command.user_name]

/-- `needle` occurs as a contiguous run inside `hay`. -/
def isSub : List Char → List Char → Bool
  | needle, [] => needle.isEmpty
  | needle, c :: rest => pfx needle (c :: rest) || isSub needle rest

/-- String containment, used to state "the detail contains the exit code". -/
def substr (needle hay : String) : Bool := isSub needle.toList hay.toList

theorem pfx_refl (l : List Char) : pfx l l = true := by
  induction l with
  | nil => rfl
  | cons a as ih => simp [pfx, ih]

theorem isSub_append_self (needle pre : List Char) : isSub needle (pre ++ needle) = true := by
  induction pre with
  | nil =>
    cases needle with
    | nil => rfl
    | cons c cs => simp [isSub, pfx_refl]
  | cons d ds ih => simp [isSub, ih]

theorem substr_append_self (pre s : String) : substr s (pre ++ s) = true := by
  have h : (pre ++ s).toList = pre.toList ++ s.toList := by simp [String.toList]
  simp [substr, h, isSub_append_self]

/-- A fixed sample flash request (the one from the specification scenario). -/
def cmd0 : FlashCommand := ⟨"Jetson", "Orin Nano", "36.4.4", "nvme", false, "alice"⟩

/-- Claim C9: for every Flash Request, the subprocess invocation passes the
request's fields as positional arguments in exactly the order: product,
device module, jetpack version, storage device, the keep-files flag rendered
as "true"/"false", then user name (after the script path). -/
theorem flash_args_order (script_path : String) (command : FlashCommand) :
    (flash_args script_path command).length = 7 ∧
    (flash_args script_path command).get? 0 = some script_path ∧
    (flash_args script_path command).get? 1 = some command.product ∧
    (flash_args script_path command).get? 2 = some command.device_module ∧
    (flash_args script_path command).get? 3 = some command.jetpack_version ∧
    (flash_args script_path command).get? 4 = some command.storage_device ∧
    (command.keep_files = true → (flash_args script_path command).get? 5 = some "true") ∧
    (command.keep_files = false → (flash_args script_path command).get? 5 = some "false") ∧
    (flash_args script_path command).get? 6 = some command.user_name := by
  cases hk : command.keep_files <;> simp [flash_args, hk]

/-- Witness for C9 at the sample request (keep_files = false renders "false"). -/
theorem flash_args_order_witness :
    cmd0.keep_files = false ∧ (flash_args "flash_cordatus.sh" cmd0).get? 5 = some "false" := by
  have h := (flash_args_order "flash_cordatus.sh" cmd0).2.2.2.2.2.2.2.1
  exact ⟨rfl, h rfl⟩

/-- Claim C8: the catalog lookups are total over all module-name strings:
unknown modules get the sentinel board id "0000-0000", an empty firmware
list and the single conservative storage option ["sd"]; known modules get
nonempty fixed entries with firmware versions ordered newest first. -/
theorem catalog_lookups_total (module : String) :
    (module ∉ knownModules →
       get_board_id_from_module module = "0000-0000" ∧
       get_supported_l4t_versions module = [] ∧
       get_storage_options module = ["sd"]) ∧
    (module ∈ knownModules →
       sortedNewestFirst (get_supported_l4t_versions module) = true ∧
       get_supported_l4t_versions module ≠ [] ∧
       get_storage_options module ≠ []) := by
  constructor
  · intro h
    simp only [knownModules, List.mem_cons, List.not_mem_nil, or_false, not_or] at h
    obtain ⟨h1, h2, h3, h4, h5, h6⟩ := h
    refine ⟨?_, ?_, ?_⟩ <;>
      simp [get_board_id_from_module, get_supported_l4t_versions, get_storage_options,
        h1, h2, h3, h4, h5, h6]
  · intro h
    simp only [knownModules, List.mem_cons, List.not_mem_nil, or_false] at h
    rcases h with rfl | rfl | rfl | rfl | rfl | rfl <;>
      exact ⟨by decide, by decide, by decide⟩

/-- Witness for C8: an unknown module gets the sentinel defaults, and a
known module's firmware list is ordered newest first. -/
theorem catalog_lookups_total_witness :
    ("Raspberry Pi" ∉ knownModules ∧
       get_board_id_from_module "Raspberry Pi" = "0000-0000" ∧
       get_supported_l4t_versions "Raspberry Pi" = [] ∧
       get_storage_options "Raspberry Pi" = ["sd"]) ∧
    ("AGX Orin" ∈ knownModules ∧
       sortedNewestFirst (get_supported_l4t_versions "AGX Orin") = true) := by
  refine ⟨⟨by decide, (catalog_lookups_total "Raspberry Pi").1 (by decide)⟩,
          ⟨by decide, ((catalog_lookups_total "AGX Orin").2 (by decide)).1⟩⟩

/-- Claim C7: the recovery-mode flag is derived without ever erroring, and it
is true exactly when the active configuration exposes exactly one interface
whose first descriptor has class code 0xFF and subclass code 0; a missing
configuration descriptor or any mismatch yields false. -/
theorem recovery_mode_iff (device : RusbDevice) :
    check_recovery_mode device = Except.ok (derive_recovery_flag device) ∧
    (derive_recovery_flag device = true ↔
       ∃ config_desc single_interface leading_desc,
         device.active_config = some config_desc ∧
         config_desc.interfaces = [single_interface] ∧
         single_interface.descriptors.head? = some leading_desc ∧
         leading_desc.class_code = 0xFF ∧
         leading_desc.sub_class_code = 0) := by
  rcases device with ⟨ac⟩
  cases ac with
  | none => simp [check_recovery_mode, derive_recovery_flag]
  | some cfg =>
    rcases cfg with ⟨ifaces⟩
    match ifaces with
    | [] => simp [check_recovery_mode, derive_recovery_flag, ConfigDescriptor.num_interfaces]
    | [i] =>
      rcases i with ⟨descs⟩
      cases descs with
      | nil => simp [check_recovery_mode, derive_recovery_flag, ConfigDescriptor.num_interfaces]
      | cons d ds =>
        simp [check_recovery_mode, derive_recovery_flag, ConfigDescriptor.num_interfaces,
          Bool.and_eq_true, beq_iff_eq]
    | i :: j :: rest =>
      simp [check_recovery_mode, derive_recovery_flag, ConfigDescriptor.num_interfaces]

/-- Claim C3 (amended): the linear mapping laws hold for the pattern the
parser honors: an unconditional law for the download pattern, and laws for
the flashing / verifying patterns conditional on the earlier patterns not
matching (first match wins). -/
theorem parser_linear_laws (line : String) (p : Nat) :
    (captureNumPercent download_pat line.toList = some p →
       (parse_flash_output line).map (fun s => (s.stage, s.progress)) =
         some ("downloading", (p : ℚ) * 0.3)) ∧
    (captureNumPercent download_pat line.toList = none →
     captureNumPercent flash_pat line.toList = some p →
       (parse_flash_output line).map (fun s => (s.stage, s.progress)) =
         some ("flashing", 30 + (p : ℚ) * 0.6)) ∧
    (captureNumPercent download_pat line.toList = none →
     captureNumPercent flash_pat line.toList = none →
     captureNumPercent verify_pat line.toList = some p →
       (parse_flash_output line).map (fun s => (s.stage, s.progress)) =
         some ("verifying", 90 + (p : ℚ) * 0.1)) := by
  refine ⟨fun h1 => ?_, fun h1 h2 => ?_, fun h1 h2 h3 => ?_⟩
  · simp only [parse_flash_output, h1, Option.map_some']
  · simp only [parse_flash_output, h1, h2, Option.map_some']
  · simp only [parse_flash_output, h1, h2, h3, Option.map_some']

/-- Witness for C3 at a concrete flashing line. -/
theorem parser_linear_laws_witness :
    (parse_flash_output "Flashing 10%").map (fun s => (s.stage, s.progress)) =
      some ("flashing", 30 + (10 : ℚ) * 0.6) :=
  (parser_linear_laws "Flashing 10%" 10).2.1 (by decide) (by decide)

/-- Counterexample for C3 as frozen: the line "Downloading Flashing 50%"
matches the flashing pattern with percent 50, yet the parser yields stage
"downloading" (global percent 15), not stage "flashing" with percent 60. -/
theorem parser_linear_laws_cx :
    captureNumPercent flash_pat ("Downloading Flashing 50%".toList) = some 50 ∧
    (parse_flash_output "Downloading Flashing 50%").map (·.stage) = some "downloading" ∧
    (parse_flash_output "Downloading Flashing 50%").map (·.stage) ≠ some "flashing" := by
  have h1 : captureNumPercent download_pat ("Downloading Flashing 50%".toList) = some 50 := by
    decide
  refine ⟨by decide, ?_, ?_⟩
  · simp only [parse_flash_output, h1, Option.map_some']
  · simp only [parse_flash_output, h1, Option.map_some']
    decide

/-- Claim C6: the parser tries download, then flashing, then verifying, and
the first matching pattern wins; a line matching none of the three yields no
output and leaves any registry state unchanged. -/
theorem parser_precedence (line : String) (st : AppState) (flash_id : String) :
    (∀ p, captureNumPercent download_pat line.toList = some p →
       (parse_flash_output line).map (·.stage) = some "downloading") ∧
    (captureNumPercent download_pat line.toList = none →
       ∀ p, captureNumPercent flash_pat line.toList = some p →
         (parse_flash_output line).map (·.stage) = some "flashing") ∧
    (captureNumPercent download_pat line.toList = none →
       captureNumPercent flash_pat line.toList = none →
       ∀ p, captureNumPercent verify_pat line.toList = some p →
         (parse_flash_output line).map (·.stage) = some "verifying") ∧
    (captureNumPercent download_pat line.toList = none →
       captureNumPercent flash_pat line.toList = none →
       captureNumPercent verify_pat line.toList = none →
       parse_flash_output line = none) ∧
    (parse_flash_output line = none → stream_line flash_id line st = st) := by
  refine ⟨fun p h1 => ?_, fun h1 p h2 => ?_, fun h1 h2 p h3 => ?_, fun h1 h2 h3 => ?_,
          fun h => ?_⟩
  · simp only [parse_flash_output, h1, Option.map_some']
  · simp only [parse_flash_output, h1, h2, Option.map_some']
  · simp only [parse_flash_output, h1, h2, h3, Option.map_some']
  · simp only [parse_flash_output, h1, h2, h3]
  · simp [stream_line, h]

/-- Witness for C6: a verifying line is honored only after the two earlier
patterns fail, and a non-matching line leaves the state unchanged. -/
theorem parser_precedence_witness :
    (parse_flash_output "Verifying 10%").map (·.stage) = some "verifying" ∧
    stream_line "job-x" "no match here" emptyState = emptyState :=
  ⟨(parser_precedence "Verifying 10%" emptyState "job-x").2.2.1 (by decide) (by decide)
     10 (by decide),
   (parser_precedence "no match here" emptyState "job-x").2.2.2.2 (by decide)⟩

/-- The local percent of the pattern `parse_flash_output` honors (same
precedence as the parser). -/
def captured_percent (line : String) : Option Nat :=
  match captureNumPercent download_pat line.toList with
  | some p => some p
  | none =>
  match captureNumPercent flash_pat line.toList with
  | some p => some p
  | none => captureNumPercent verify_pat line.toList

/-- Claim C2 (amended): the fixed snapshots the orchestrator stores all have
progress in [0,100], and a parser snapshot has progress in [0,100] whenever
the captured local percent is at most 100 (the code does not clamp: captured
percents above 100 can push the global percent past 100). -/
theorem progress_bounds (line : String) (p now : Nat) (command : FlashCommand) (e : String) :
    (0 ≤ (initial_progress now).progress ∧ (initial_progress now).progress ≤ 100) ∧
    (0 ≤ (downloading_placeholder command).progress ∧
       (downloading_placeholder command).progress ≤ 100) ∧
    (0 ≤ complete_snapshot.progress ∧ complete_snapshot.progress ≤ 100) ∧
    (0 ≤ (error_snapshot e).progress ∧ (error_snapshot e).progress ≤ 100) ∧
    (captured_percent line = some p → p ≤ 100 →
       (parse_flash_output line).elim True
         (fun s => 0 ≤ s.progress ∧ s.progress ≤ 100)) := by
  refine ⟨⟨by norm_num [initial_progress], by norm_num [initial_progress]⟩,
          ⟨by norm_num [downloading_placeholder], by norm_num [downloading_placeholder]⟩,
          ⟨by norm_num [complete_snapshot], by norm_num [complete_snapshot]⟩,
          ⟨by norm_num [error_snapshot], by norm_num [error_snapshot]⟩,
          fun hp hle => ?_⟩
  have hple : (p : ℚ) ≤ 100 := by exact_mod_cast hle
  have hp0 : (0 : ℚ) ≤ (p : ℚ) := Nat.cast_nonneg p
  cases h1 : captureNumPercent download_pat line.toList with
  | some q =>
    have hq : q = p := by
      have := hp
      simp only [captured_percent, h1, Option.some.injEq] at this
      exact this
    subst hq
    simp only [parse_flash_output, h1, Option.elim]
    constructor <;> nlinarith [hp0, hple]
  | none =>
    cases h2 : captureNumPercent flash_pat line.toList with
    | some q =>
      have hq : q = p := by
        have := hp
        simp only [captured_percent, h1, h2, Option.some.injEq] at this
        exact this
      subst hq
      simp only [parse_flash_output, h1, h2, Option.elim]
      constructor <;> nlinarith [hp0, hple]
    | none =>
      cases h3 : captureNumPercent verify_pat line.toList with
      | some q =>
        have hq : q = p := by
          have := hp
          simp only [captured_percent, h1, h2, h3, Option.some.injEq] at this
          exact this
        subst hq
        simp only [parse_flash_output, h1, h2, h3, Option.elim]
        constructor <;> nlinarith [hp0, hple]
      | none =>
        simp only [parse_flash_output, h1, h2, h3, Option.elim]

/-- Witness for C2 (amended) at the line "Verifying 50%" (captured percent
50, global percent 95). -/
theorem progress_bounds_witness :
    captured_percent "Verifying 50%" = some 50 ∧ 50 ≤ 100 ∧
    (parse_flash_output "Verifying 50%").elim True
      (fun s => 0 ≤ s.progress ∧ s.progress ≤ 100) :=
  ⟨by decide, by decide,
   (progress_bounds "Verifying 50%" 50 0 cmd0 "e").2.2.2.2 (by decide) (by decide)⟩

/-- Counterexample for C2 as frozen: the line "Verifying 200%" produces a
parser snapshot whose global percent is 110, outside [0,100]. -/
theorem progress_out_of_bounds_cx :
    (parse_flash_output "Verifying 200%").map (·.progress) = some 110 ∧
    ¬ ((110 : ℚ) ≤ 100) := by
  constructor
  · have h1 : captureNumPercent download_pat ("Verifying 200%".toList) = none := by decide
    have h2 : captureNumPercent flash_pat ("Verifying 200%".toList) = none := by decide
    have h3 : captureNumPercent verify_pat ("Verifying 200%".toList) = some 200 := by decide
    simp only [parse_flash_output, h1, h2, h3, Option.map_some', Option.some.injEq]
    norm_num
  · norm_num

/-- Claim C5: cancel is total (always returns `Ok`), leaves the snapshot
absent even when no process handle exists, is idempotent on the registry
state, and its registry effect does not depend on whether the kill request
succeeded. -/
theorem cancel_idempotent_total (st : AppState) (flash_id : String) (kill_ok kill_ok' : Bool) :
    ((cancel_flash_process flash_id kill_ok st).2 = Except.ok ()) ∧
    (mget st.active_flashes flash_id = none →
       get_flash_progress flash_id (cancel_flash_process flash_id kill_ok st).1 = none ∧
       mget (cancel_flash_process flash_id kill_ok st).1.active_flashes flash_id = none) ∧
    ((cancel_flash_process flash_id kill_ok
        ((cancel_flash_process flash_id kill_ok st).1)).1 =
       (cancel_flash_process flash_id kill_ok st).1) ∧
    ((cancel_flash_process flash_id kill_ok st).1 =
       (cancel_flash_process flash_id kill_ok' st).1) := by
  refine ⟨rfl, fun _ => ⟨?_, ?_⟩, ?_, rfl⟩
  · simp [cancel_flash_process, get_flash_progress, mget_mdel]
  · simp [cancel_flash_process, mget_mdel]
  · simp [cancel_flash_process, mdel_mdel]

/-- Witness for C5 at a job id that was never submitted. -/
theorem cancel_idempotent_total_witness :
    mget emptyState.active_flashes "ghost-job" = none ∧
    get_flash_progress "ghost-job" (cancel_flash_process "ghost-job" true emptyState).1 = none :=
  ⟨rfl, ((cancel_idempotent_total emptyState "ghost-job" true false).2.1 rfl).1⟩

/-- Claim C1 (amended): cancel removes both the process handle and the
snapshot, so a query made after the cancel returns absent; but when the
streaming task later reaches end-of-stream and finds the handle absent, it
fails with "Flash process not found" and the task wrapper re-creates an
`error` snapshot for that job id. -/
theorem cancel_removes_then_finish_errors (st : AppState) (flash_id : String) (kill_ok : Bool) :
    mget (cancel_flash_process flash_id kill_ok st).1.active_flashes flash_id = none ∧
    get_flash_progress flash_id (cancel_flash_process flash_id kill_ok st).1 = none ∧
    get_flash_progress flash_id
        (finish_flash flash_id (cancel_flash_process flash_id kill_ok st).1) =
      some (error_snapshot "Flash process not found") := by
  have h : mget (cancel_flash_process flash_id kill_ok st).1.active_flashes flash_id = none := by
    simp [cancel_flash_process, mget_mdel]
  refine ⟨h, ?_, ?_⟩
  · simp [cancel_flash_process, get_flash_progress, mget_mdel]
  · simp only [finish_flash, h, task_error, get_flash_progress]
    exact mget_mput_self _ _ _

/-- The job history of the C1 counterexample, up to the cancel: submit,
placeholder, spawn, then a flashing line at 50%. -/
def cxOpsBeforeCancel : List FlashOp :=
  [FlashOp.submit "job-1" 0, FlashOp.placeholder "job-1" cmd0,
   FlashOp.spawnChild "job-1" ⟨none⟩, FlashOp.streamLine "job-1" "Flashing 50%"]

/-- Counterexample for C1 as frozen: cancelling while the stage is
"flashing" does make the immediate query return absent, but when the
streaming task then hits end-of-stream it re-creates a snapshot (an `error`
snapshot from the failed handle removal), so later queries do not return
absent. -/
theorem cancel_while_flashing_cx :
    (get_flash_progress "job-1" (runOps cxOpsBeforeCancel emptyState)).map (·.stage) =
      some "flashing" ∧
    get_flash_progress "job-1"
        (runOps (cxOpsBeforeCancel ++ [FlashOp.cancel "job-1" true]) emptyState) = none ∧
    get_flash_progress "job-1"
        (runOps (cxOpsBeforeCancel ++ [FlashOp.cancel "job-1" true, FlashOp.finish "job-1"])
          emptyState) =
      some (error_snapshot "Flash process not found") :=
  ⟨rfl, rfl, rfl⟩

/-- Claim C4 (amended): after the streaming loop ends the task removes the
handle and waits: exit code 0 yields the `complete` snapshot at 100; a
non-zero code c yields an `error` snapshot at 0 whose detail contains c; a
missing code yields the same with -1; but a handle already absent yields an
`error` snapshot whose detail is "Flash process not found", which carries no
exit code. -/
theorem finish_exit_semantics (st : AppState) (flash_id : String) :
    (∀ child : ProcHandle, mget st.active_flashes flash_id = some child →
       mget (finish_flash flash_id st).active_flashes flash_id = none ∧
       (child.exit_code = some 0 →
          get_flash_progress flash_id (finish_flash flash_id st) = some complete_snapshot) ∧
       (∀ c : Int, child.exit_code = some c → c ≠ 0 →
          get_flash_progress flash_id (finish_flash flash_id st) =
            some (error_snapshot ("Flash process exited with error code: " ++ toString c)) ∧
          substr (toString c) ("Flash process exited with error code: " ++ toString c) = true) ∧
       (child.exit_code = none →
          get_flash_progress flash_id (finish_flash flash_id st) =
            some (error_snapshot "Flash process exited with error code: -1"))) ∧
    (mget st.active_flashes flash_id = none →
       get_flash_progress flash_id (finish_flash flash_id st) =
         some (error_snapshot "Flash process not found")) := by
  constructor
  · intro child hchild
    refine ⟨?_, fun h0 => ?_, fun c hc hc0 => ⟨?_, substr_append_self _ _⟩, fun hn => ?_⟩
    · by_cases h0 : child.exit_code = some 0
      · simp [finish_flash, hchild, h0, update_flash_progress, mget_mdel]
      · simp [finish_flash, hchild, h0, task_error, mget_mdel]
    · simp [finish_flash, hchild, h0, update_flash_progress, get_flash_progress, mget_mput_self]
    · simp [finish_flash, hchild, hc, hc0, task_error, get_flash_progress, mget_mput_self]
    · simp only [finish_flash, hchild, hn, task_error, get_flash_progress, Option.getD]
      exact mget_mput_self _ _ _
  · intro h
    simp only [finish_flash, h, task_error, get_flash_progress]
    exact mget_mput_self _ _ _

/-- Witness for C4 (amended): a stored child that exited with code 1 yields
the `error` snapshot whose detail contains "1". -/
theorem finish_exit_semantics_witness :
    mget (register_child "job-3" ⟨some 1⟩ emptyState).active_flashes "job-3" = some ⟨some 1⟩ ∧
    get_flash_progress "job-3"
        (finish_flash "job-3" (register_child "job-3" ⟨some 1⟩ emptyState)) =
      some (error_snapshot ("Flash process exited with error code: " ++ toString (1 : Int))) ∧
    substr (toString (1 : Int))
        ("Flash process exited with error code: " ++ toString (1 : Int)) = true :=
  ⟨rfl,
   (((finish_exit_semantics (register_child "job-3" ⟨some 1⟩ emptyState) "job-3").1
       ⟨some 1⟩ rfl).2.2.1 1 rfl (by decide)).1,
   (((finish_exit_semantics (register_child "job-3" ⟨some 1⟩ emptyState) "job-3").1
       ⟨some 1⟩ rfl).2.2.1 1 rfl (by decide)).2⟩

/-- Counterexample for C4 as frozen: when the handle has disappeared, the
terminal snapshot's detail is "Flash process not found" — it contains
neither an exit code nor "-1". -/
theorem finish_missing_handle_cx :
    mget emptyState.active_flashes "job-2" = none ∧
    get_flash_progress "job-2" (finish_flash "job-2" emptyState) =
      some (error_snapshot "Flash process not found") ∧
    (error_snapshot "Flash process not found").details = some "Flash process not found" ∧
    substr "-1" "Flash process not found" = false :=
  ⟨rfl, rfl, rfl, by decide⟩

/-- The six stage strings `main.rs` ever stores in the progress map. -/
def validStage (stage : String) : Prop :=
  stage = "preparing" ∨ stage = "downloading" ∨ stage = "flashing" ∨
  stage = "verifying" ∨ stage = "complete" ∨ stage = "error"

theorem parse_stage_valid (line : String) (s : FlashProgress)
    (h : parse_flash_output line = some s) :
    s.stage = "downloading" ∨ s.stage = "flashing" ∨ s.stage = "verifying" := by
  cases h1 : captureNumPercent download_pat line.toList with
  | some p =>
    simp only [parse_flash_output, h1, Option.some.injEq] at h
    subst h
    left; rfl
  | none =>
    cases h2 : captureNumPercent flash_pat line.toList with
    | some p =>
      simp only [parse_flash_output, h1, h2, Option.some.injEq] at h
      subst h
      right; left; rfl
    | none =>
      cases h3 : captureNumPercent verify_pat line.toList with
      | some p =>
        simp only [parse_flash_output, h1, h2, h3, Option.some.injEq] at h
        subst h
        right; right; rfl
      | none =>
        simp only [parse_flash_output, h1, h2, h3] at h
        cases h

/-- Every snapshot in the progress map has a stage from the six-name set. -/
def ProgressInv (st : AppState) : Prop :=
  ∀ flash_id s, mget st.flash_progress flash_id = some s → validStage s.stage

theorem progressInv_mput (m : List (String × FlashProgress)) (k : String) (v : FlashProgress)
    (h : ∀ key s, mget m key = some s → validStage s.stage) (hv : validStage v.stage) :
    ∀ key s, mget (mput m k v) key = some s → validStage s.stage := by
  intro key s hk
  rw [mget_mput] at hk
  by_cases hkk : key = k
  · rw [if_pos hkk] at hk
    cases hk
    exact hv
  · rw [if_neg hkk] at hk
    exact h key s hk

theorem progressInv_mdel (m : List (String × FlashProgress)) (k : String)
    (h : ∀ key s, mget m key = some s → validStage s.stage) :
    ∀ key s, mget (mdel m k) key = some s → validStage s.stage := by
  intro key s hk
  rw [mget_mdel] at hk
  by_cases hkk : key = k
  · rw [if_pos hkk] at hk
    cases hk
  · rw [if_neg hkk] at hk
    exact h key s hk

theorem progressInv_applyOp (op : FlashOp) (st : AppState) (h : ProgressInv st) :
    ProgressInv (applyOp op st) := by
  cases op with
  | submit flash_id now =>
    exact progressInv_mput _ _ _ h (Or.inl rfl)
  | taskError flash_id e =>
    exact progressInv_mput _ _ _ h (by right; right; right; right; right; rfl)
  | placeholder flash_id command =>
    exact progressInv_mput _ _ _ h (by right; left; rfl)
  | spawnChild flash_id child =>
    exact h
  | streamLine flash_id line =>
    intro key s hk
    simp only [applyOp, stream_line] at hk
    cases hp : parse_flash_output line with
    | none =>
      rw [hp] at hk
      exact h key s hk
    | some progress_info =>
      rw [hp] at hk
      have hv : validStage progress_info.stage := by
        rcases parse_stage_valid line progress_info hp with h1 | h1 | h1
        · right; left; exact h1
        · right; right; left; exact h1
        · right; right; right; left; exact h1
      exact progressInv_mput _ _ _ h hv key s hk
  | finish flash_id =>
    intro key s hk
    simp only [applyOp, finish_flash, task_error, update_flash_progress] at hk
    split at hk
    · exact progressInv_mput _ _ _ h (by right; right; right; right; right; rfl) key s hk
    · split at hk
      · exact progressInv_mput _ _ _ h (by right; right; right; right; left; rfl) key s hk
      · exact progressInv_mput _ _ _ h (by right; right; right; right; right; rfl) key s hk
  | cancel flash_id kill_ok =>
    exact progressInv_mdel _ _ h

theorem runOps_progressInv (ops : List FlashOp) (st : AppState) (h : ProgressInv st) :
    ProgressInv (runOps ops st) := by
  induction ops generalizing st with
  | nil => exact h
  | cons op rest ih =>
    simp only [runOps, List.foldl]
    exact ih (applyOp op st) (progressInv_applyOp op st h)

theorem validStage_ne_cancelled (stage : String) (h : validStage stage) :
    stage ≠ "cancelled" := by
  rcases h with rfl | rfl | rfl | rfl | rfl | rfl <;> decide

/-- Claim C10: every snapshot any sequence of lifecycle events stores in the
progress map has one of the six stages "preparing", "downloading",
"flashing", "verifying", "complete", "error"; in particular the stage
"cancelled" is never stored — cancellation removes the entry instead. -/
theorem stage_vocabulary_invariant (ops : List FlashOp) (flash_id : String) (s : FlashProgress)
    (h : mget (runOps ops emptyState).flash_progress flash_id = some s) :
    validStage s.stage ∧ s.stage ≠ "cancelled" := by
  have hinv : ProgressInv emptyState := by
    intro key s' hk
    cases hk
  have hv := runOps_progressInv ops emptyState hinv flash_id s h
  exact ⟨hv, validStage_ne_cancelled s.stage hv⟩

/-- The snapshot the C1 scenario's history stores for "job-1" after the
line "Flashing 50%". -/
def flashing50 : FlashProgress :=
  { stage := "flashing", progress := 30 + ((50 : Nat) : ℚ) * 0.6, message := "Flashing 50%",
    details := none, start_time := none,
    estimated_time_remaining := some (u64cast ((100 - ((50 : Nat) : ℚ)) * 1.5)) }

/-- Witness for C10: the history of the C1 scenario stores the "flashing"
snapshot for "job-1", and its stage is among the six and not "cancelled". -/
theorem stage_vocabulary_invariant_witness :
    mget (runOps cxOpsBeforeCancel emptyState).flash_progress "job-1" = some flashing50 ∧
    validStage flashing50.stage ∧ flashing50.stage ≠ "cancelled" :=
  ⟨rfl, stage_vocabulary_invariant cxOpsBeforeCancel "job-1" flashing50 rfl⟩
